import Mathlib

/-
Verification of the Track-Deez habit tracker core: a shallow embedding of
the recurring-event occurrence engine, the streak calculator, the
day-status classifier and the build-up habit state machine, together with
theorems settling the specification claims.

Conventions of the embedding:
  - JS Date values normalized to midnight are represented by their civil
    calendar triple (year, month, day) with months 1..12; the timestamp
    order of two such dates is the order of their day numbers (days since
    1970-01-01), computed by the standard civil-from-days algorithm on the
    proleptic Gregorian calendar, which is what JS Date implements.
  - The JS remainder operator on numbers is the truncated remainder
    (Int.tmod); Math.floor of a quotient with positive divisor is floor
    division, which for positive divisors agrees with Int division (/).
  - A JS number-or-undefined field is an Option Int; its JS truthiness
    test treats undefined and 0 as falsy.
  - The one unbounded JS loop (the backward walk of the last-weekday
    monthly pattern) is modelled with explicit fuel; a result of none
    means the loop did not terminate within the given fuel.
-/

namespace TrackDeez

/-- Day number (days since 1970-01-01) of a civil date in the proleptic
Gregorian calendar, by the standard days-from-civil algorithm written with
floor division. This models the JS Date timestamp of local midnight
divided by 86400000. -/
def daysFromCivil (y m d : Int) : Int :=
  let y2 := if m ≤ 2 then y - 1 else y
  let era := y2 / 400
  let yoe := y2 - era * 400
  let mp := if m ≤ 2 then m + 9 else m - 3
  let doy := (153 * mp + 2) / 5 + d - 1
  let doe := yoe * 365 + yoe / 4 - yoe / 100 + doy
  era * 146097 + doe - 719468

/-- Weekday of an absolute day number, as JS Date.getDay: 0 = Sunday ..
6 = Saturday. Day 0 (1970-01-01) was a Thursday, hence the offset 4. -/
def weekdayOf (a : Int) : Int := (a + 4) % 7

/-- A calendar date, the embedding of a JS Date normalized to midnight. -/
structure CalDate where
  year : Int
  month : Int
  day : Int
deriving DecidableEq

/-- Day number of a calendar date. -/
def CalDate.dayNumber (d : CalDate) : Int := daysFromCivil d.year d.month d.day

/-- Gregorian leap year rule, as implemented by JS Date. -/
def isLeapYear (y : Int) : Bool := y % 4 == 0 && (y % 100 != 0 || y % 400 == 0)

/-- Number of days in a month; models new Date(y, m, 0).getDate() on the
month that precedes m (JS uses it to find the last day of a month). -/
def daysInMonth (y m : Int) : Int :=
  if m = 2 then (if isLeapYear y then 29 else 28)
  else if m = 4 ∨ m = 6 ∨ m = 9 ∨ m = 11 then 30
  else 31

/-- Validity of a calendar triple: exactly the triples that arise from a
normalized JS Date. -/
def ValidDate (d : CalDate) : Prop :=
  1 ≤ d.month ∧ d.month ≤ 12 ∧ 1 ≤ d.day ∧ d.day ≤ daysInMonth d.year d.month

instance (d : CalDate) : Decidable (ValidDate d) := by
  unfold ValidDate; infer_instance

/-- JS truthiness of a number-or-undefined field: undefined and 0 are
falsy, every other number is truthy. -/
def truthyNum : Option Int → Bool
  | none => false
  | some v => v != 0

/-- Value of a number-or-undefined field where the code reads it after a
truthiness guard. -/
def numVal (o : Option Int) : Int := o.getD 0

/-- The JS test (a % b === 0). JS remainder is the truncated remainder;
for b = 0 the remainder is NaN and the strict-equality test is false. -/
def jsModZero (a b : Int) : Bool := if b = 0 then false else Int.tmod a b == 0

/-- Monthly pattern sub-object of a recurrence: week is 1-based, or -1 for
the last week; dayOfWeek is a JS weekday number. -/
structure MonthlyPattern where
  week : Int
  dayOfWeek : Int
deriving DecidableEq

/-- Recurrence spec of an event, as stored by the data layer. A missing
daysOfWeek array and an empty one take the same branch in the source, so
both are the empty list here. -/
structure Recurrence where
  rtype : String
  interval : Int
  daysOfWeek : List Int
  dayOfMonth : Option Int
  monthlyPattern : Option MonthlyPattern
  endDate : Option CalDate
  occurrences : Option Int
deriving DecidableEq

/-- An event: its anchor date (the field named date in the source) and an
optional recurrence. The remaining fields (id, title, times) play no role
in the occurrence engine. -/
structure Event where
  date : CalDate
  recurrence : Option Recurrence
deriving DecidableEq

/-- The inner occurrence-counting loop of the weekly case: the source
walks day by day from eventStartDate to checkDate inclusive and counts the
days on an in-scope week whose weekday is configured. Here the loop is
phrased by recursion on the number of loop days; offset n from the anchor
contributes when floor(n / 7) passes the interval test and its weekday is
in the list. -/
def weeklyCount (startAbs interval : Int) (dows : List Int) : Nat → Nat
  | 0 => 0
  | n + 1 =>
    weeklyCount startAbs interval dows n +
      (if jsModZero ((n : Int) / 7) interval && dows.contains (weekdayOf (startAbs + n)) then 1 else 0)

/-- The backward while-loop of the last-weekday monthly pattern: starting
at day q of the month whose first day has absolute number firstAbs, step
backward until a day whose weekday equals dow. The JS Date constructor
normalizes out-of-range day numbers, so probing day q of the month always
means absolute day firstAbs + q - 1, for every integer q. The fuel makes
the unbounded JS loop a total function; none models non-termination. -/
def walkBack (firstAbs dow : Int) : Nat → Int → Option Int
  | 0, _ => none
  | fuel + 1, q =>
    if weekdayOf (firstAbs + q - 1) == dow then some q
    else walkBack firstAbs dow fuel (q - 1)

/-- The occurrence-limit tail shared by the index-counted branches: when
the occurrences field is truthy the computed occurrence number must not
exceed it, otherwise the branch returns true. -/
def occLimit (occurrences : Option Int) (occurrenceNumber : Int) : Bool :=
  if truthyNum occurrences then decide (occurrenceNumber ≤ numVal occurrences) else true

/-- Embedding of DataManager.eventOccursOnDate. Fuel bounds the backward
walk of the last-weekday pattern; every other path ignores it. In the
Nth-weekday branch the source builds new Date(year, month, targetDate) and
returns false when its getMonth differs from the candidate month; for a
day number t that test succeeds exactly when 1 <= t <= daysInMonth, except
for t so large that the date rolls a full year ahead into the same month
number - and such t also exceed 31, so the subsequent day-equality test
returns false either way, making the range test below observationally
equal to the source. -/
def eventOccursOnDateF (fuel : Nat) (event : Event) (d : CalDate) : Option Bool :=
  match event.recurrence with
  | none => some false
  | some r =>
    let checkAbs := d.dayNumber
    let startAbs := event.date.dayNumber
    if checkAbs < startAbs then some false
    else if (match r.endDate with
             | some e => decide (e.dayNumber < checkAbs)
             | none => false) then some false
    else
      let daysDiff := checkAbs - startAbs
      match r.rtype with
      | "daily" =>
        if jsModZero daysDiff r.interval then
          some (occLimit r.occurrences (daysDiff / r.interval + 1))
        else some false
      | "weekly" =>
        if r.daysOfWeek.isEmpty then some false
        else
          let weeksDiff := daysDiff / 7
          if jsModZero weeksDiff r.interval then
            if r.daysOfWeek.contains (weekdayOf checkAbs) then
              if truthyNum r.occurrences then
                some (decide ((weeklyCount startAbs r.interval r.daysOfWeek (daysDiff + 1).toNat : Int)
                  ≤ numVal r.occurrences))
              else some true
            else some false
          else some false
      | "monthly" =>
        let monthsDiff := (d.year - event.date.year) * 12 + (d.month - event.date.month)
        if jsModZero monthsDiff r.interval then
          if truthyNum r.dayOfMonth then
            if d.day == numVal r.dayOfMonth then
              some (occLimit r.occurrences (monthsDiff / r.interval + 1))
            else some false
          else
            match r.monthlyPattern with
            | some p =>
              if p.week == -1 then
                match walkBack (daysFromCivil d.year d.month 1) p.dayOfWeek fuel
                    (daysInMonth d.year d.month) with
                | none => none
                | some target =>
                  if d.day == target then
                    some (occLimit r.occurrences (monthsDiff / r.interval + 1))
                  else some false
              else
                let firstDayOfWeek := weekdayOf (daysFromCivil d.year d.month 1)
                let daysUntilTarget := Int.tmod (p.dayOfWeek - firstDayOfWeek + 7) 7
                let target := 1 + daysUntilTarget + (p.week - 1) * 7
                if target < 1 ∨ daysInMonth d.year d.month < target then some false
                else if d.day == target then
                  some (occLimit r.occurrences (monthsDiff / r.interval + 1))
                else some false
            | none => some false
        else some false
      | "yearly" =>
        let yearsDiff := d.year - event.date.year
        if jsModZero yearsDiff r.interval then
          if d.month == event.date.month && d.day == event.date.day then
            some (occLimit r.occurrences (yearsDiff / r.interval + 1))
          else some false
        else some false
      | "custom" =>
        if jsModZero daysDiff r.interval then
          some (occLimit r.occurrences (daysDiff / r.interval + 1))
        else some false
      | _ => some false

/-- Occurrence check with the walk fuel fixed at 31: for a pattern with
dayOfWeek between 0 and 6 the backward walk ends within 7 steps, so this
fuel is never exhausted on such inputs. -/
def eventOccursOnDate (event : Event) (d : CalDate) : Option Bool :=
  eventOccursOnDateF 31 event d

example : daysFromCivil 1970 1 1 = 0 := by decide
example : daysFromCivil 2024 1 1 = 19723 := by decide
example : weekdayOf (daysFromCivil 2024 1 1) = 1 := by decide
example : weekdayOf (daysFromCivil 2024 2 23) = 5 := by decide

/-- A day record: the per-date bag of habit completion flags and tracking
values, keyed lazily by date. Association lists model the JS objects; only
lookup and keyed update are ever performed on them. -/
structure DayRecord where
  habits : List (String × Bool)
  tracking : List (String × String)
deriving DecidableEq

/-- The JS test (dayData.habits[habitId] === true) respectively the truthy
read the day-status classifier performs: missing and false both fail. -/
def habitDone (rec : DayRecord) (id : String) : Bool :=
  (rec.habits.lookup id).getD false

/-- The guarded JS read (dayData && dayData.habits && dayData.habits[id]
=== true) on a possibly missing day record. -/
def completedOn (days : List (Int × DayRecord)) (dateAbs : Int) (id : String) : Bool :=
  match days.lookup dateAbs with
  | some r => habitDone r id
  | none => false

/-- Result object of calculateLongestStreak; dates are carried as day
numbers (the source formats the very same Date values to strings on
return, and formatting is injective on normalized dates). -/
structure StreakResult where
  count : Int
  startDate : Option Int
  endDate : Option Int
deriving DecidableEq

/-- The forward scanning loop of calculateLongestStreak, by recursion on
the number of remaining loop days. cur is the day under scan; when the
loop exhausts, cur - 1 is the scanned today, which the source uses as the
end of a trailing open run. -/
def longestLoop (habitId : String) (days : List (Int × DayRecord)) :
    Nat → Int → Int → Option Int → Option Int → Int → Option Int → StreakResult
  | 0, cur, longest, lStart, lEnd, cc, cs =>
    if cc > longest then ⟨cc, cs, some (cur - 1)⟩ else ⟨longest, lStart, lEnd⟩
  | n + 1, cur, longest, lStart, lEnd, cc, cs =>
    if completedOn days cur habitId then
      longestLoop habitId days n (cur + 1) longest lStart lEnd (cc + 1)
        (if cc = 0 then some cur else cs)
    else
      if cc > longest then
        longestLoop habitId days n (cur + 1) cc cs (some (cur - 1)) 0 none
      else
        longestLoop habitId days n (cur + 1) longest lStart lEnd 0 none

/-- Embedding of calculateLongestStreak: scan day by day from the creation
date (truncated to midnight) through today inclusive. -/
def calculateLongestStreak (habitId : String) (days : List (Int × DayRecord))
    (createdAbs todayAbs : Int) : StreakResult :=
  longestLoop habitId days (todayAbs - createdAbs + 1).toNat createdAbs 0 none none 0 none

/-- The milestone thresholds from utils/constants.js. -/
def STREAK_MILESTONES : List Int := [7, 30, 100, 365]

/-- Embedding of checkMilestone: return the first configured milestone
that the current streak reaches and the previous streak had not. -/
def checkMilestone (previousStreak currentStreak : Int) : Option Int :=
  STREAK_MILESTONES.find? (fun m => decide (currentStreak ≥ m) && decide (previousStreak < m))

/-- Stored build-up configuration of a habit. -/
structure BuildUpConfig where
  startValue : Int
  goalValue : Int
  incrementValue : Int
  daysForIncrement : Int
  unit : String
  currentValue : Int
  currentStreak : Int
deriving DecidableEq

/-- A habit as stored by the app-main DataManager; id and createdAt are
generated from the clock, so the id is a parameter of addHabit here. -/
structure Habit where
  id : String
  name : String
  description : String
  archived : Bool
  isBuildUpHabit : Bool
  buildUpConfig : Option BuildUpConfig
deriving DecidableEq

/-- The per-user data aggregate, restricted to the fields the claims
touch (trackingFields, events and templates never interact with these
operations). -/
structure AppData where
  habits : List Habit
  days : List (Int × DayRecord)
deriving DecidableEq

/-- Embedding of DataManager.getDayData: return the day record for the
date, creating an empty one in the aggregate when none is stored yet. -/
def getDayData (data : AppData) (dateAbs : Int) : DayRecord × AppData :=
  match data.days.lookup dateAbs with
  | some r => (r, data)
  | none => (⟨[], []⟩, ⟨data.habits, (dateAbs, (⟨[], []⟩ : DayRecord)) :: data.days⟩)

/-- Embedding of DataManager.getDayStatus. The source normalizes both
dates to midnight and compares; it reads the day record through
getDayData, which can create an empty record, so the updated aggregate is
part of the result. -/
def getDayStatus (data : AppData) (dateAbs todayAbs : Int) : String × AppData :=
  if todayAbs < dateAbs then ("gray", data)
  else
    let dd := getDayData data dateAbs
    let activeHabits := data.habits.filter (fun h => !h.archived)
    let totalHabits := activeHabits.length
    if totalHabits = 0 then ("gray", dd.2)
    else
      let completedHabits := (activeHabits.filter (fun h => habitDone dd.1 h.id)).length
      if completedHabits = 0 then ("red", dd.2)
      else if completedHabits = totalHabits then ("green", dd.2)
      else ("yellow", dd.2)

/-- The build-up configuration argument passed to addHabit / updateHabit
by the habit form: currentValue and currentStreak are absent there, but
the source reads them with a JS or-default, so they are optional here. -/
structure BuildUpInput where
  startValue : Int
  goalValue : Int
  incrementValue : Int
  daysForIncrement : Int
  unit : String
  currentValue : Option Int
  currentStreak : Option Int
deriving DecidableEq

/-- The JS read (x || d) on a number-or-undefined x: undefined and 0 fall
back to the default. -/
def jsOrInt (o : Option Int) (dflt : Int) : Int :=
  match o with
  | some v => if v = 0 then dflt else v
  | none => dflt

/-- Embedding of DataManager.addHabit. The generated id is a parameter;
the new habit is appended and also returned. -/
def addHabit (data : AppData) (newId name description : String) (isBuildUpHabit : Bool)
    (buildUpConfig : Option BuildUpInput) : AppData × Habit :=
  let habit : Habit :=
    match buildUpConfig with
    | some cfg =>
      if isBuildUpHabit then
        ⟨newId, name, description, false, isBuildUpHabit,
          some ⟨cfg.startValue, cfg.goalValue, cfg.incrementValue, cfg.daysForIncrement,
            cfg.unit, jsOrInt cfg.currentValue cfg.startValue, jsOrInt cfg.currentStreak 0⟩⟩
      else ⟨newId, name, description, false, isBuildUpHabit, none⟩
    | none => ⟨newId, name, description, false, isBuildUpHabit, none⟩
  (⟨data.habits ++ [habit], data.days⟩, habit)

/-- Replace the first habit with the given id (the findIndex-and-assign
idiom of the source) and return the updated list and habit. -/
def replaceHabitById (f : Habit → Habit) (id : String) : List Habit → Option (List Habit × Habit)
  | [] => none
  | h :: t =>
    if h.id == id then some ((f h) :: t, f h)
    else
      match replaceHabitById f id t with
      | some (t2, h2) => some (h :: t2, h2)
      | none => none

/-- The habit produced by updateHabit for an existing habit: the spread
keeps archived status; a provided build-up configuration preserves the
existing progress through JS or-defaults; turning the build-up flag off
deletes the configuration. -/
def updatedHabit (existing : Habit) (name description : String) (isBuildUpHabit : Bool)
    (buildUpConfig : Option BuildUpInput) : Habit :=
  match buildUpConfig with
  | some cfg =>
    if isBuildUpHabit then
      ⟨existing.id, name, description, existing.archived, isBuildUpHabit,
        some ⟨cfg.startValue, cfg.goalValue, cfg.incrementValue, cfg.daysForIncrement,
          cfg.unit,
          jsOrInt (existing.buildUpConfig.map (fun c => c.currentValue)) cfg.startValue,
          jsOrInt (existing.buildUpConfig.map (fun c => c.currentStreak)) 0⟩⟩
    else ⟨existing.id, name, description, existing.archived, isBuildUpHabit, none⟩
  | none =>
    if isBuildUpHabit then
      ⟨existing.id, name, description, existing.archived, isBuildUpHabit, existing.buildUpConfig⟩
    else ⟨existing.id, name, description, existing.archived, isBuildUpHabit, none⟩

/-- Embedding of DataManager.updateHabit: update the first habit with the
given id, or return the aggregate unchanged when the id is unknown. -/
def updateHabit (data : AppData) (id name description : String) (isBuildUpHabit : Bool)
    (buildUpConfig : Option BuildUpInput) : AppData × Option Habit :=
  match replaceHabitById (fun h => updatedHabit h name description isBuildUpHabit buildUpConfig)
      id data.habits with
  | some (habits2, h2) => (⟨habits2, data.days⟩, some h2)
  | none => (data, none)

/-- Keyed update of a habit flag inside the day map; the record for the
key always exists here because setHabitComplete creates it first. -/
def setAssocBool : List (String × Bool) → String → Bool → List (String × Bool)
  | [], k, v => [(k, v)]
  | (k0, v0) :: t, k, v =>
    if k0 == k then (k0, v) :: t else (k0, v0) :: setAssocBool t k v

/-- Write the completion flag of one habit into the record stored for the
given date. -/
def setDayHabit : List (Int × DayRecord) → Int → String → Bool → List (Int × DayRecord)
  | [], _, _, _ => []
  | (k0, r) :: t, k, hid, v =>
    if k0 == k then (k0, ⟨setAssocBool r.habits hid v, r.tracking⟩) :: t
    else (k0, r) :: setDayHabit t k hid v

/-- The build-up configuration transition of setHabitComplete: a true
completion bumps the streak and steps the current value (capped at the
goal) once the threshold is reached; unchecking resets the streak. -/
def stepBuildUp (cfg : BuildUpConfig) (completed : Bool) : BuildUpConfig :=
  if completed then
    let s := cfg.currentStreak + 1
    if s ≥ cfg.daysForIncrement then
      ⟨cfg.startValue, cfg.goalValue, cfg.incrementValue, cfg.daysForIncrement, cfg.unit,
        min (cfg.currentValue + cfg.incrementValue) cfg.goalValue, 0⟩
    else
      ⟨cfg.startValue, cfg.goalValue, cfg.incrementValue, cfg.daysForIncrement, cfg.unit,
        cfg.currentValue, s⟩
  else
    ⟨cfg.startValue, cfg.goalValue, cfg.incrementValue, cfg.daysForIncrement, cfg.unit,
      cfg.currentValue, 0⟩

/-- Embedding of DataManager.setHabitComplete: ensure the day record
exists, step the build-up configuration of a build-up habit, then write
the completion flag into the day record. -/
def setHabitComplete (data : AppData) (dateAbs : Int) (habitId : String)
    (completed : Bool) : AppData :=
  let data1 := (getDayData data dateAbs).2
  let data2 :=
    match data1.habits.find? (fun h => h.id == habitId) with
    | some h =>
      match h.buildUpConfig with
      | some cfg =>
        if h.isBuildUpHabit then
          match replaceHabitById
              (fun h0 => ⟨h0.id, h0.name, h0.description, h0.archived, h0.isBuildUpHabit,
                some (stepBuildUp cfg completed)⟩) habitId data1.habits with
          | some (habits2, _) => (⟨habits2, data1.days⟩ : AppData)
          | none => data1
        else data1
      | none => data1
    | none => data1
  ⟨data2.habits, setDayHabit data2.days dateAbs habitId completed⟩

/-- The build-up fields of the habit form as parsed by the save handler;
none models a NaN result of parseFloat / parseInt. -/
structure BuildUpForm where
  startValue : Option Int
  goalValue : Option Int
  incrementValue : Option Int
  daysForIncrement : Option Int
  unit : String
deriving DecidableEq

/-- Embedding of the habit-form save handler on the add path (no habit is
being edited): validate the build-up fields in source order and either
report the alert message leaving the aggregate unchanged, or add the
habit. -/
def habitFormSave (data : AppData) (newId name description : String) (isBuildUpHabit : Bool)
    (form : BuildUpForm) : Option String × AppData :=
  if isBuildUpHabit then
    match form.startValue, form.goalValue, form.incrementValue, form.daysForIncrement with
    | some sv, some gv, some iv, some di =>
      if sv ≤ 0 ∨ gv ≤ 0 ∨ iv ≤ 0 ∨ di ≤ 0 then
        (some "All build-up values must be positive numbers greater than zero", data)
      else if gv ≤ sv then
        (some "Goal Value must be greater than Starting Value", data)
      else if name == "" then (none, data)
      else
        (none, (addHabit data newId name description true
          (some ⟨sv, gv, iv, di, form.unit, none, none⟩)).1)
    | _, _, _, _ =>
      (some "Please fill in all required build-up habit fields with valid numbers", data)
  else
    if name == "" then (none, data)
    else (none, (addHabit data newId name description false none).1)

/-
Specification-side definitions (written from the claim wording, for
comparison with the source embedding above) and concrete fixtures.
-/

/-- Specification-side day-status classifier, following the claim wording:
undated (gray) strictly after today; archived habits excluded from
numerator and denominator; gray with no active habits; red with zero
completed, green with all completed, yellow otherwise. It reads the stored
day records directly and never creates one. -/
def specDayStatus (data : AppData) (dateAbs todayAbs : Int) : String :=
  if todayAbs < dateAbs then "gray"
  else
    let active := data.habits.filter (fun h => !h.archived)
    if active.length = 0 then "gray"
    else
      let completed := active.filter (fun h => completedOn data.days dateAbs h.id)
      if completed.length = 0 then "red"
      else if completed.length = active.length then "green"
      else "yellow"

/-- Start of the calendar week (the preceding or same Sunday) of an
absolute day, used by the claim wording for weekly recurrences. -/
def weekStart (a : Int) : Int := a - weekdayOf a

/-- Specification-side weekly occurrence test, following the claim
wording: whole weeks between the week starts of anchor and candidate,
divisible by the interval, and the candidate weekday configured. -/
def specWeeklyOccurs (event : Event) (d : CalDate) : Bool :=
  match event.recurrence with
  | none => false
  | some r =>
    let checkAbs := d.dayNumber
    let startAbs := event.date.dayNumber
    if checkAbs < startAbs then false
    else
      let w := (weekStart checkAbs - weekStart startAbs) / 7
      jsModZero w r.interval && r.daysOfWeek.contains (weekdayOf checkAbs)

/-- Property that one single date ever satisfies the occurrence test for
an event (over all valid calendar dates). -/
def occursExactlyOn (ev : Event) (d0 : CalDate) : Prop :=
  eventOccursOnDate ev d0 = some true ∧
    ∀ d, ValidDate d → eventOccursOnDate ev d = some true → d = d0

/-- Monthly event on day 31 anchored 2024-01-31, interval 1, two
occurrences allowed. -/
def day31Event : Event :=
  ⟨⟨2024, 1, 31⟩, some ⟨"monthly", 1, [], some 31, none, none, some 2⟩⟩

/-- Weekly event on Mondays and Wednesdays anchored Monday 2024-01-01,
interval 1, three occurrences allowed. -/
def weeklyPairEvent : Event :=
  ⟨⟨2024, 1, 1⟩, some ⟨"weekly", 1, [1, 3], none, none, none, some 3⟩⟩

/-- Yearly event anchored on the leap day 2024-02-29, interval 1, two
occurrences allowed. -/
def leapYearlyEvent : Event :=
  ⟨⟨2024, 2, 29⟩, some ⟨"yearly", 1, [], none, none, none, some 2⟩⟩

/-- Weekly event on Mondays with interval 2, anchored Wednesday
2024-01-03, no end condition. -/
def anchorWedEvent : Event :=
  ⟨⟨2024, 1, 3⟩, some ⟨"weekly", 2, [1], none, none, none, none⟩⟩

/-- Monthly last-Friday pattern event anchored 2024-01-01, interval 1. -/
def lastFridayEvent : Event :=
  ⟨⟨2024, 1, 1⟩, some ⟨"monthly", 1, [], none, some ⟨-1, 5⟩, none, none⟩⟩

/-- Monthly fifth-Monday pattern event anchored 2024-01-01, interval 1. -/
def fifthMondayEvent : Event :=
  ⟨⟨2024, 1, 1⟩, some ⟨"monthly", 1, [], none, some ⟨5, 1⟩, none, none⟩⟩

/-- Monthly last-weekday pattern with the out-of-range weekday 7. -/
def badDowWalkEvent : Event :=
  ⟨⟨2024, 1, 1⟩, some ⟨"monthly", 1, [], none, some ⟨-1, 7⟩, none, none⟩⟩

/-- Monthly first-weekday pattern with the out-of-range weekday 7. -/
def badDowNthEvent : Event :=
  ⟨⟨2024, 1, 1⟩, some ⟨"monthly", 1, [], none, some ⟨1, 7⟩, none, none⟩⟩

/-- Recurrence with a type the engine does not know. -/
def unknownTypeEvent : Event :=
  ⟨⟨2024, 1, 1⟩, some ⟨"bogus", 1, [], none, none, none, none⟩⟩

/-- Weekly recurrence with an empty weekday set. -/
def emptyWeeklyEvent : Event :=
  ⟨⟨2024, 1, 1⟩, some ⟨"weekly", 1, [], none, none, none, none⟩⟩

/-- Monthly recurrence with neither a fixed day nor a pattern. -/
def bareMonthlyEvent : Event :=
  ⟨⟨2024, 1, 1⟩, some ⟨"monthly", 1, [], none, none, none, none⟩⟩

/-- Fixture of the longest-streak claim: habit h completed on
2024-01-01..03 (day numbers 19723..19725), not completed 2024-01-04,
completed 2024-01-05..08 (19727..19730). -/
def fixtureDays : List (Int × DayRecord) :=
  [(19723, ⟨[("h", true)], []⟩), (19724, ⟨[("h", true)], []⟩), (19725, ⟨[("h", true)], []⟩),
   (19726, ⟨[("h", false)], []⟩), (19727, ⟨[("h", true)], []⟩), (19728, ⟨[("h", true)], []⟩),
   (19729, ⟨[("h", true)], []⟩), (19730, ⟨[("h", true)], []⟩)]

/-- Fixture with two runs of equal length two (days 19723-19724 and
19726-19727), to exhibit the tie-breaking of the scan. -/
def tieDays : List (Int × DayRecord) :=
  [(19723, ⟨[("h", true)], []⟩), (19724, ⟨[("h", true)], []⟩),
   (19726, ⟨[("h", true)], []⟩), (19727, ⟨[("h", true)], []⟩)]

/-- The calendar last Fridays of 2024, month by month. -/
def lastFridays2024 : List (Int × Int) :=
  [(1, 26), (2, 23), (3, 29), (4, 26), (5, 31), (6, 28), (7, 26), (8, 30),
   (9, 27), (10, 25), (11, 29), (12, 27)]

/-- Aggregate with one active habit and no stored day records. -/
def oneHabitData : AppData := ⟨[⟨"h1", "n", "", false, false, none⟩], []⟩

/-- Invariant of a stored build-up configuration: the current value lies
between the start and goal values, and the increment is non-negative. -/
def ConfigInv (c : BuildUpConfig) : Prop :=
  c.startValue ≤ c.currentValue ∧ c.currentValue ≤ c.goalValue ∧ 0 ≤ c.incrementValue

instance (c : BuildUpConfig) : Decidable (ConfigInv c) := by
  unfold ConfigInv; infer_instance

/-- Invariant lifted to an optional configuration. -/
def ConfigInvOpt : Option BuildUpConfig → Prop
  | some c => ConfigInv c
  | none => True

instance (o : Option BuildUpConfig) : Decidable (ConfigInvOpt o) := by
  cases o <;> unfold ConfigInvOpt <;> infer_instance

/-- Invariant of the aggregate: every stored build-up configuration is
well-formed. -/
def DataInv (data : AppData) : Prop :=
  ∀ h ∈ data.habits, ConfigInvOpt h.buildUpConfig

instance (data : AppData) : Decidable (DataInv data) := by
  unfold DataInv; infer_instance

/-- Aggregate of the build-up counterexample after adding habit h with
start 1, goal 10, increment 7, threshold 1. -/
def buildUpData1 : AppData :=
  (addHabit ⟨[], []⟩ "h" "n" "" true (some ⟨1, 10, 7, 1, "", none, none⟩)).1

/-- Aggregate after completing habit h once (its current value steps from
1 to 8). -/
def buildUpData2 : AppData := setHabitComplete buildUpData1 0 "h" true

/-- Aggregate after reconfiguring habit h with goal 5 (a configuration
that itself passes validation: positive values, goal above start). -/
def buildUpData3 : AppData :=
  (updateHabit buildUpData2 "h" "n" "" true (some ⟨1, 5, 1, 1, "", none, none⟩)).1

/-
Supporting lemmas.
-/

theorem getDayStatus_fst_eq (data : AppData) (dateAbs todayAbs : Int) :
    (getDayStatus data dateAbs todayAbs).1 = specDayStatus data dateAbs todayAbs := by
  by_cases hf : todayAbs < dateAbs
  · simp [getDayStatus, specDayStatus, hf]
  · rcases h : data.days.lookup dateAbs with _ | r
    · simp [getDayStatus, specDayStatus, getDayData, hf, h, completedOn, habitDone,
        apply_ite Prod.fst]
    · simp [getDayStatus, specDayStatus, getDayData, hf, h, completedOn,
        apply_ite Prod.fst]

theorem getDayStatus_snd_eq (data : AppData) (dateAbs todayAbs : Int) :
    (getDayStatus data dateAbs todayAbs).2 =
      (if todayAbs < dateAbs ∨ (data.days.lookup dateAbs).isSome then data
       else ⟨data.habits, (dateAbs, (⟨[], []⟩ : DayRecord)) :: data.days⟩) := by
  by_cases hf : todayAbs < dateAbs
  · simp [getDayStatus, hf]
  · rcases h : data.days.lookup dateAbs with _ | r
    · simp [getDayStatus, getDayData, h, hf, apply_ite Prod.snd, ite_self]
    · simp [getDayStatus, getDayData, h, hf, apply_ite Prod.snd, ite_self]

theorem find?_milestone_char (p c : Int) (l : List Int)
    (hl : l.Sorted (· ≤ ·)) (m : Int) :
    l.find? (fun x => decide (c ≥ x) && decide (p < x)) = some m ↔
      (m ∈ l ∧ m ≤ c ∧ p < m ∧ ∀ m2 ∈ l, m2 ≤ c → p < m2 → m ≤ m2) := by
  induction l with
  | nil => simp
  | cons x t ih =>
    rw [List.sorted_cons] at hl
    by_cases hq : x ≤ c ∧ p < x
    · rw [List.find?_cons_of_pos _ (by simp; omega)]
      constructor
      · rintro h
        have hmx : m = x := by simpa using h.symm
        subst hmx
        refine ⟨by simp, hq.1, hq.2, ?_⟩
        rintro m2 hm2 _ _
        rcases List.mem_cons.mp hm2 with h2 | h2
        · omega
        · exact hl.1 m2 h2
      · rintro ⟨hmem, hmc, hpm, hmin⟩
        have hx : m ≤ x := hmin x (by simp) hq.1 hq.2
        rcases List.mem_cons.mp hmem with h2 | h2
        · simp [h2]
        · have := hl.1 m h2; simp; omega
    · rw [List.find?_cons_of_neg _ (by simp; omega)]
      rw [ih hl.2]
      constructor
      · rintro ⟨hmem, hmc, hpm, hmin⟩
        refine ⟨List.mem_cons_of_mem _ hmem, hmc, hpm, ?_⟩
        rintro m2 hm2 h1 h2
        rcases List.mem_cons.mp hm2 with h3 | h3
        · exact absurd ⟨h3 ▸ h1, h3 ▸ h2⟩ hq
        · exact hmin m2 h3 h1 h2
      · rintro ⟨hmem, hmc, hpm, hmin⟩
        rcases List.mem_cons.mp hmem with h3 | h3
        · exact absurd ⟨h3 ▸ hmc, h3 ▸ hpm⟩ hq
        · exact ⟨h3, hmc, hpm, fun m2 hm2 h1 h2 => hmin m2 (List.mem_cons_of_mem _ hm2) h1 h2⟩

theorem weekdayOf_range (x : Int) : 0 ≤ weekdayOf x ∧ weekdayOf x ≤ 6 := by
  unfold weekdayOf; omega

theorem walkBack_dow7 (firstAbs : Int) : ∀ (fuel : Nat) (q : Int),
    walkBack firstAbs 7 fuel q = none := by
  intro fuel
  induction fuel with
  | zero => intro q; rfl
  | succ n ih =>
    intro q
    have hne : weekdayOf (firstAbs + q - 1) ≠ 7 := by unfold weekdayOf; omega
    simp [walkBack, hne]
    exact ih (q - 1)

theorem weekly_characterization (anchor : CalDate) (i : Int) (dows : List Int) (d : CalDate)
    (hi : 1 ≤ i) (hne : dows ≠ []) :
    (eventOccursOnDate ⟨anchor, some ⟨"weekly", i, dows, none, none, none, none⟩⟩ d = some true ↔
      (anchor.dayNumber ≤ d.dayNumber ∧
        Int.tmod ((d.dayNumber - anchor.dayNumber) / 7) i = 0 ∧
        weekdayOf d.dayNumber ∈ dows)) := by
  unfold eventOccursOnDate eventOccursOnDateF
  have hi0 : i ≠ 0 := by omega
  by_cases hlt : d.dayNumber < anchor.dayNumber
  · simp only [hlt, if_true, reduceIte]
    constructor
    · intro h; exact absurd h (by simp)
    · intro h; omega
  · simp only [hlt, reduceIte]
    simp [jsModZero, hi0, truthyNum, hne, List.isEmpty_iff]
    split_ifs with h1 h2 <;> simp_all

theorem daysInMonth_le (y m : Int) : daysInMonth y m ≤ 31 := by
  unfold daysInMonth isLeapYear; split_ifs <;> omega

theorem daysInMonth_ge (y m : Int) : 28 ≤ daysInMonth y m := by
  unfold daysInMonth isLeapYear; split_ifs <;> omega

theorem dayNumber_lt_of_year_le (d : CalDate) (hv : ValidDate d) (hy : d.year ≤ 2023) :
    d.dayNumber < 19753 := by
  obtain ⟨h1, h2, h3, h4⟩ := hv
  have h5 : d.day ≤ 31 := le_trans h4 (daysInMonth_le d.year d.month)
  simp only [CalDate.dayNumber, daysFromCivil]
  split <;> omega

theorem weeklyCount_add (s i : Int) (dows : List Int) (n k : Nat) :
    weeklyCount s i dows n ≤ weeklyCount s i dows (n + k) := by
  induction k with
  | zero => exact le_refl _
  | succ k ih =>
    calc weeklyCount s i dows n ≤ weeklyCount s i dows (n + k) := ih
    _ ≤ weeklyCount s i dows (n + k) +
        (if jsModZero ((n + k : Nat) / 7) i && dows.contains (weekdayOf (s + (n + k))) then 1
         else 0) := Nat.le_add_right _ _
    _ = weeklyCount s i dows (n + (k + 1)) := rfl

theorem weeklyCount_mono (s i : Int) (dows : List Int) {n m : Nat} (h : n ≤ m) :
    weeklyCount s i dows n ≤ weeklyCount s i dows m := by
  have := weeklyCount_add s i dows n (m - n)
  rwa [Nat.add_sub_cancel' h] at this

theorem dailyCustom_characterization (rt : String) (hrt : rt = "daily" ∨ rt = "custom")
    (anchor : CalDate) (i n : Int) (d : CalDate) (hi : 1 ≤ i) (hn : 1 ≤ n) :
    (eventOccursOnDate ⟨anchor, some ⟨rt, i, [], none, none, none, some n⟩⟩ d = some true ↔
      ∃ k : Int, 0 ≤ k ∧ k < n ∧ d.dayNumber = anchor.dayNumber + k * i) := by
  have hi0 : i ≠ 0 := by omega
  have hn0 : n ≠ 0 := by omega
  rcases hrt with rfl | rfl <;>
  · unfold eventOccursOnDate eventOccursOnDateF
    by_cases hlt : d.dayNumber < anchor.dayNumber
    · simp only [hlt, reduceIte]
      constructor
      · intro h; exact absurd h (by simp)
      · rintro ⟨k, hk0, hkn, he⟩
        have : 0 ≤ k * i := mul_nonneg hk0 (by omega)
        omega
    · simp only [hlt, reduceIte]
      by_cases hmod : Int.tmod (d.dayNumber - anchor.dayNumber) i = 0
      · simp [jsModZero, hi0, hmod, truthyNum, occLimit, numVal, hn0]
        constructor
        · intro hlim
          refine ⟨(d.dayNumber - anchor.dayNumber) / i, Int.ediv_nonneg (by omega) (by omega),
            by omega, ?_⟩
          have hmod2 : (d.dayNumber - anchor.dayNumber) % i = 0 := by
            rw [← Int.tmod_eq_emod (by omega) (by omega)]; exact hmod
          have := Int.ediv_add_emod (d.dayNumber - anchor.dayNumber) i
          rw [hmod2] at this
          have hcomm : i * ((d.dayNumber - anchor.dayNumber) / i) =
              (d.dayNumber - anchor.dayNumber) / i * i := mul_comm _ _
          omega
        · rintro ⟨k, hk0, hkn, he⟩
          have hdd : d.dayNumber - anchor.dayNumber = k * i := by omega
          rw [hdd, Int.mul_ediv_cancel k hi0]
          omega
      · simp [jsModZero, hi0, hmod, truthyNum, occLimit, numVal, hn0]
        intro k hk0 hkn he
        refine hmod ?_
        have hdd : d.dayNumber - anchor.dayNumber = k * i := by omega
        rw [hdd, Int.tmod_eq_emod (mul_nonneg hk0 (by omega)) (by omega)]
        exact Int.mul_emod_left k i

theorem weeklyPair_exact (d : CalDate) :
    eventOccursOnDate weeklyPairEvent d = some true ↔
      (d.dayNumber = 19723 ∨ d.dayNumber = 19725 ∨ d.dayNumber = 19730) := by
  have ha : (⟨2024, 1, 1⟩ : CalDate).dayNumber = 19723 := by decide
  simp only [eventOccursOnDate, eventOccursOnDateF, weeklyPairEvent, ha]
  set x := d.dayNumber with hx
  clear_value x
  clear hx
  by_cases h1 : x < 19723
  · simp only [h1, reduceIte]
    constructor
    · intro h; exact absurd h (by simp)
    · intro h; omega
  · by_cases h2 : x ≤ 19732
    · have hb1 : 19723 ≤ x := by omega
      interval_cases x <;> decide
    · simp only [h1, reduceIte]
      by_cases hc : weekdayOf x = 1 ∨ weekdayOf x = 3
      · have h10 : weeklyCount 19723 1 [1, 3] 10 = 4 := by decide
        have hle : (10 : Nat) ≤ (x - 19723 + 1).toNat := by omega
        have hcount : 4 ≤ weeklyCount 19723 1 [1, 3] (x - 19723 + 1).toNat :=
          h10 ▸ weeklyCount_mono 19723 1 [1, 3] hle
        have hfour : ¬ ((weeklyCount 19723 1 [1, 3] (x - 19723 + 1).toNat : Int)
            ≤ numVal (some 3)) := by
          simp only [numVal, Option.getD]
          omega
        simp [jsModZero, Int.tmod_one, truthyNum, hc, hfour]
        omega
      · simp [jsModZero, Int.tmod_one, truthyNum, hc]
        omega

theorem day31Event_only (d : CalDate) (hv : ValidDate d)
    (h : eventOccursOnDate day31Event d = some true) : d = ⟨2024, 1, 31⟩ := by
  have ha : (⟨2024, 1, 31⟩ : CalDate).dayNumber = 19753 := by decide
  unfold eventOccursOnDate eventOccursOnDateF day31Event at h
  rw [ha] at h
  by_cases hlt : d.dayNumber < 19753
  · simp [hlt] at h
  · simp only [hlt, reduceIte] at h
    by_cases hday : d.day = 31
    · simp [jsModZero, Int.tmod_one, truthyNum, numVal, occLimit, hday] at h
      have hy : 2024 ≤ d.year := by
        by_contra hy2
        exact absurd (dayNumber_lt_of_year_le d hv (by omega)) (by omega)
      obtain ⟨hv1, hv2, hv3, hv4⟩ := hv
      have hy24 : d.year = 2024 := by omega
      have hm12 : d.month = 1 ∨ d.month = 2 := by omega
      rcases hm12 with hm | hm
      · obtain ⟨y, m, dd⟩ := d
        simp_all
      · exfalso
        have : daysInMonth d.year d.month = 29 := by rw [hy24, hm]; decide
        omega
    · simp [jsModZero, Int.tmod_one, truthyNum, numVal, occLimit, hday] at h

theorem daysFromCivil_shift (y m q : Int) :
    daysFromCivil y m q = daysFromCivil y m 1 + (q - 1) := by
  simp only [daysFromCivil]
  split_ifs <;> omega

theorem walkBack_spec (firstAbs dow : Int) (hdow0 : 0 ≤ dow) (hdow6 : dow ≤ 6) :
    ∀ (fuel : Nat) (q : Int),
      (weekdayOf (firstAbs + q - 1) - dow) % 7 < (fuel : Int) →
      walkBack firstAbs dow fuel q =
        some (q - (weekdayOf (firstAbs + q - 1) - dow) % 7) := by
  intro fuel
  induction fuel with
  | zero =>
    intro q h
    exfalso
    have : 0 ≤ (weekdayOf (firstAbs + q - 1) - dow) % 7 := by unfold weekdayOf; omega
    omega
  | succ nf ih =>
    intro q h
    by_cases he : weekdayOf (firstAbs + q - 1) = dow
    · have hz : (weekdayOf (firstAbs + q - 1) - dow) % 7 = 0 := by rw [he]; simp
      rw [hz]
      simp [walkBack, he]
    · have hk : (weekdayOf (firstAbs + q - 1) - dow) % 7 =
          (weekdayOf (firstAbs + (q - 1) - 1) - dow) % 7 + 1 := by
        unfold weekdayOf at *
        omega
      have hih := ih (q - 1) (by omega)
      simp only [walkBack]
      rw [if_neg (by simp [he])]
      rw [hih]
      congr 1
      omega

theorem ite_some_shape {A B : Prop} [Decidable A] [Decidable B] :
    ((if A then some false else if B then (some true : Option Bool) else some false)
      = some true) ↔ (¬A ∧ B) := by
  split_ifs <;> simp_all

theorem monthlyPattern_last (anchor d : CalDate) (i : Int) (p : MonthlyPattern)
    (hv : ValidDate d) (hi : 1 ≤ i) (hanchor : anchor.dayNumber ≤ d.dayNumber)
    (hdow0 : 0 ≤ p.dayOfWeek) (hdow6 : p.dayOfWeek ≤ 6)
    (hscope : Int.tmod ((d.year - anchor.year) * 12 + (d.month - anchor.month)) i = 0)
    (hw : p.week = -1) :
    (eventOccursOnDate ⟨anchor, some ⟨"monthly", i, [], none, some p, none, none⟩⟩ d
        = some true ↔
      (weekdayOf d.dayNumber = p.dayOfWeek ∧
        ∀ q, d.day < q → q ≤ daysInMonth d.year d.month →
          weekdayOf (daysFromCivil d.year d.month q) ≠ p.dayOfWeek)) := by
  have hi0 : i ≠ 0 := by omega
  have hlt : ¬ (d.dayNumber < anchor.dayNumber) := by omega
  simp only [eventOccursOnDate, eventOccursOnDateF]
  simp only [hlt, reduceIte]
  simp only [jsModZero, hi0, hscope, truthyNum, occLimit, hw]
  have hb : (weekdayOf (daysFromCivil d.year d.month 1 + daysInMonth d.year d.month - 1)
      - p.dayOfWeek) % 7 < ((31 : Nat) : Int) := by
    unfold weekdayOf; omega
  rw [walkBack_spec (daysFromCivil d.year d.month 1) p.dayOfWeek hdow0 hdow6 31
    (daysInMonth d.year d.month) hb]
  simp
  obtain ⟨hv1, hv2, hv3, hv4⟩ := hv
  have hdim28 : 28 ≤ daysInMonth d.year d.month := daysInMonth_ge _ _
  have hdnum : d.dayNumber = daysFromCivil d.year d.month 1 + (d.day - 1) := by
    unfold CalDate.dayNumber
    rw [daysFromCivil_shift d.year d.month d.day]
  constructor
  · intro hday
    constructor
    · rw [hdnum]; unfold weekdayOf at *; omega
    · intro q hq1 hq2 heq
      rw [daysFromCivil_shift d.year d.month q] at heq
      unfold weekdayOf at *
      omega
  · rintro ⟨hwd, hmax⟩
    rw [hdnum] at hwd
    by_contra hne
    rcases lt_or_gt_of_ne hne with hlt2 | hgt
    · refine hmax (daysInMonth d.year d.month -
          (weekdayOf (daysFromCivil d.year d.month 1 + daysInMonth d.year d.month - 1)
            - p.dayOfWeek) % 7) hlt2 (by unfold weekdayOf at *; omega) ?_
      rw [daysFromCivil_shift]
      unfold weekdayOf at *
      omega
    · unfold weekdayOf at *
      omega

theorem monthlyPattern_nth (anchor d : CalDate) (i : Int) (p : MonthlyPattern)
    (hv : ValidDate d) (hi : 1 ≤ i) (hanchor : anchor.dayNumber ≤ d.dayNumber)
    (hdow0 : 0 ≤ p.dayOfWeek) (hdow6 : p.dayOfWeek ≤ 6)
    (hscope : Int.tmod ((d.year - anchor.year) * 12 + (d.month - anchor.month)) i = 0)
    (hw : 1 ≤ p.week) :
    (eventOccursOnDate ⟨anchor, some ⟨"monthly", i, [], none, some p, none, none⟩⟩ d
        = some true ↔
      (weekdayOf d.dayNumber = p.dayOfWeek ∧
        (p.week - 1) * 7 + 1 ≤ d.day ∧ d.day ≤ p.week * 7)) := by
  have hi0 : i ≠ 0 := by omega
  have hlt : ¬ (d.dayNumber < anchor.dayNumber) := by omega
  have hwm1 : ¬ (p.week = -1) := by omega
  simp only [eventOccursOnDate, eventOccursOnDateF]
  simp only [hlt, reduceIte]
  simp only [jsModZero, hi0, hscope, truthyNum, occLimit, hwm1]
  have htm : Int.tmod (p.dayOfWeek - weekdayOf (daysFromCivil d.year d.month 1) + 7) 7 =
      (p.dayOfWeek - weekdayOf (daysFromCivil d.year d.month 1) + 7) % 7 :=
    Int.tmod_eq_emod (by unfold weekdayOf; omega) (by omega)
  simp only [htm]
  simp
  rw [if_neg hwm1]
  rw [ite_some_shape]
  obtain ⟨hv1, hv2, hv3, hv4⟩ := hv
  have hdim28 : 28 ≤ daysInMonth d.year d.month := daysInMonth_ge _ _
  have hdnum : d.dayNumber = daysFromCivil d.year d.month 1 + (d.day - 1) := by
    unfold CalDate.dayNumber
    rw [daysFromCivil_shift d.year d.month d.day]
  rw [hdnum]
  simp only [weekdayOf]
  omega

theorem stepBuildUp_inv (cfg : BuildUpConfig) (completed : Bool) (h : ConfigInv cfg) :
    ConfigInv (stepBuildUp cfg completed) ∧
      cfg.currentValue ≤ (stepBuildUp cfg completed).currentValue ∧
      (stepBuildUp cfg completed).startValue = cfg.startValue ∧
      (stepBuildUp cfg completed).goalValue = cfg.goalValue ∧
      (stepBuildUp cfg completed).incrementValue = cfg.incrementValue := by
  obtain ⟨h1, h2, h3⟩ := h
  unfold stepBuildUp ConfigInv
  cases completed <;> simp <;> (try split_ifs) <;> (try simp) <;> omega

theorem replaceHabitById_mem (f : Habit → Habit) (id : String) :
    ∀ (l l2 : List Habit) (h2 : Habit), replaceHabitById f id l = some (l2, h2) →
      ∀ h ∈ l2, h ∈ l ∨ ∃ h0 ∈ l, h = f h0 := by
  intro l
  induction l with
  | nil => intro l2 h2 h; simp [replaceHabitById] at h
  | cons x t ih =>
    intro l2 h2 hrep h hm
    unfold replaceHabitById at hrep
    by_cases hx : (x.id == id) = true
    · rw [if_pos hx] at hrep
      obtain ⟨hl2, hh2⟩ : f x :: t = l2 ∧ f x = h2 := by
        constructor <;> [exact congrArg Prod.fst (Option.some.inj hrep);
          exact congrArg Prod.snd (Option.some.inj hrep)]
      subst hl2
      rcases List.mem_cons.mp hm with h3 | h3
      · exact Or.inr ⟨x, by simp, h3⟩
      · exact Or.inl (List.mem_cons_of_mem _ h3)
    · rw [if_neg hx] at hrep
      rcases hrec : replaceHabitById f id t with _ | ⟨t2, h3⟩
      · rw [hrec] at hrep; exact absurd hrep (by simp)
      · rw [hrec] at hrep
        obtain ⟨hl2, hh2⟩ : x :: t2 = l2 ∧ h3 = h2 := by
          constructor <;> [exact congrArg Prod.fst (Option.some.inj hrep);
            exact congrArg Prod.snd (Option.some.inj hrep)]
        subst hl2
        rcases List.mem_cons.mp hm with h4 | h4
        · exact Or.inl (by simp [h4])
        · rcases ih t2 h3 hrec h h4 with h5 | ⟨h0, h6, h7⟩
          · exact Or.inl (List.mem_cons_of_mem _ h5)
          · exact Or.inr ⟨h0, List.mem_cons_of_mem _ h6, h7⟩

theorem getDayData_habits (data : AppData) (dateAbs : Int) :
    (getDayData data dateAbs).2.habits = data.habits := by
  unfold getDayData
  cases data.days.lookup dateAbs <;> simp

theorem setHabitComplete_inv (data : AppData) (dateAbs : Int) (habitId : String)
    (completed : Bool) (hinv : DataInv data) :
    DataInv (setHabitComplete data dateAbs habitId completed) := by
  have h1 : (getDayData data dateAbs).2.habits = data.habits :=
    getDayData_habits data dateAbs
  have hinv1 : ∀ h ∈ (getDayData data dateAbs).2.habits, ConfigInvOpt h.buildUpConfig := by
    rw [h1]; exact hinv
  unfold setHabitComplete DataInv
  rcases hfind : (getDayData data dateAbs).2.habits.find? (fun h => h.id == habitId)
      with _ | hfound
  · simpa [hfind] using hinv1
  · rcases hcfg : hfound.buildUpConfig with _ | cfg
    · simpa [hfind, hcfg] using hinv1
    · by_cases hbu : hfound.isBuildUpHabit
      · rcases hrep : replaceHabitById
            (fun h0 => ⟨h0.id, h0.name, h0.description, h0.archived, h0.isBuildUpHabit,
              some (stepBuildUp cfg completed)⟩) habitId (getDayData data dateAbs).2.habits
            with _ | ⟨habits2, hnew⟩
        · simpa [hfind, hcfg, hbu, hrep] using hinv1
        · have hcinv : ConfigInv cfg := by
            have hmem : hfound ∈ (getDayData data dateAbs).2.habits :=
              List.mem_of_find?_eq_some hfind
            have := hinv1 hfound hmem
            rw [hcfg] at this
            exact this
          simp only [hfind, hcfg, hbu, hrep]
          intro h hm
          rcases replaceHabitById_mem _ habitId _ habits2 hnew hrep h hm with h2 | ⟨h0, _, h3⟩
          · exact hinv1 h h2
          · rw [h3]
            exact (stepBuildUp_inv cfg completed hcinv).1
      · simpa [hfind, hcfg, hbu] using hinv1

theorem addHabit_inv (data : AppData) (newId name description : String)
    (sv gv iv di : Int) (unit : String) (hinv : DataInv data)
    (hsv : 0 < sv) (hgv : sv < gv) (hiv : 0 < iv) :
    DataInv (addHabit data newId name description true
      (some ⟨sv, gv, iv, di, unit, none, none⟩)).1 := by
  unfold addHabit DataInv
  intro h hm
  simp only [List.mem_append, List.mem_singleton] at hm
  rcases hm with hm | hm
  · exact hinv h hm
  · rw [hm]
    simp [ConfigInvOpt, ConfigInv, jsOrInt]
    omega

theorem updatedHabit_keeps_currentValue (existing : Habit) (name description : String)
    (cfg : BuildUpInput) (c : BuildUpConfig)
    (hc : existing.buildUpConfig = some c) (hnz : c.currentValue ≠ 0) :
    (updatedHabit existing name description true (some cfg)).buildUpConfig =
      some ⟨cfg.startValue, cfg.goalValue, cfg.incrementValue, cfg.daysForIncrement,
        cfg.unit, c.currentValue, c.currentStreak⟩ := by
  unfold updatedHabit
  simp [hc, jsOrInt, hnz]
  by_cases hs : c.currentStreak = 0 <;> simp [hs]

/-
Claim theorems.
-/

/-- C1 (amended): with an occurrence limit N, daily and custom
recurrences occur on exactly the N dates anchor + k * interval days for
0 <= k < N, in chronological order from the anchor; the weekly limit
counts actual qualifying days, shown at a representative Monday and
Wednesday event with N = 3 whose only occurrences are the first three
qualifying days (19723, 19725, 19730); but for monthly rules the
occurrence number is the month index, not a count of actual occurrences:
the day-31 event with N = 2 occurs exactly once ever, and the yearly
leap-day event with N = 2 occurs on 2024-02-29 yet is already rejected on
2028-02-29, its second calendar occurrence, because four year indices
were consumed. -/
theorem C1_occurrence_limits (anchor : CalDate) (i n : Int) (d e : CalDate)
    (hi : 1 ≤ i) (hn : 1 ≤ n) :
    ((eventOccursOnDate ⟨anchor, some ⟨"daily", i, [], none, none, none, some n⟩⟩ d
        = some true ↔
        ∃ k : Int, 0 ≤ k ∧ k < n ∧ d.dayNumber = anchor.dayNumber + k * i) ∧
     (eventOccursOnDate ⟨anchor, some ⟨"custom", i, [], none, none, none, some n⟩⟩ d
        = some true ↔
        ∃ k : Int, 0 ≤ k ∧ k < n ∧ d.dayNumber = anchor.dayNumber + k * i) ∧
     (eventOccursOnDate weeklyPairEvent e = some true ↔
        (e.dayNumber = 19723 ∨ e.dayNumber = 19725 ∨ e.dayNumber = 19730)) ∧
     occursExactlyOn day31Event ⟨2024, 1, 31⟩ ∧
     eventOccursOnDate leapYearlyEvent ⟨2024, 2, 29⟩ = some true ∧
     eventOccursOnDate leapYearlyEvent ⟨2028, 2, 29⟩ = some false) :=
  ⟨dailyCustom_characterization "daily" (Or.inl rfl) anchor i n d hi hn,
    dailyCustom_characterization "custom" (Or.inr rfl) anchor i n d hi hn,
    weeklyPair_exact e,
    ⟨by decide, fun d2 hv h => day31Event_only d2 hv h⟩,
    by decide, by decide⟩

/-- C1 (witness): the amended characterization instantiated at anchor
2024-01-01, interval 2, limit 3, candidate 2024-01-05 for the daily parts
and 2024-01-08 for the weekly part. -/
theorem C1_occurrence_limits_witness :
    ((eventOccursOnDate ⟨⟨2024, 1, 1⟩, some ⟨"daily", 2, [], none, none, none, some 3⟩⟩
        ⟨2024, 1, 5⟩ = some true ↔
        ∃ k : Int, 0 ≤ k ∧ k < 3 ∧
          (⟨2024, 1, 5⟩ : CalDate).dayNumber = (⟨2024, 1, 1⟩ : CalDate).dayNumber + k * 2) ∧
     (eventOccursOnDate ⟨⟨2024, 1, 1⟩, some ⟨"custom", 2, [], none, none, none, some 3⟩⟩
        ⟨2024, 1, 5⟩ = some true ↔
        ∃ k : Int, 0 ≤ k ∧ k < 3 ∧
          (⟨2024, 1, 5⟩ : CalDate).dayNumber = (⟨2024, 1, 1⟩ : CalDate).dayNumber + k * 2) ∧
     (eventOccursOnDate weeklyPairEvent ⟨2024, 1, 8⟩ = some true ↔
        ((⟨2024, 1, 8⟩ : CalDate).dayNumber = 19723 ∨
          (⟨2024, 1, 8⟩ : CalDate).dayNumber = 19725 ∨
          (⟨2024, 1, 8⟩ : CalDate).dayNumber = 19730)) ∧
     occursExactlyOn day31Event ⟨2024, 1, 31⟩ ∧
     eventOccursOnDate leapYearlyEvent ⟨2024, 2, 29⟩ = some true ∧
     eventOccursOnDate leapYearlyEvent ⟨2028, 2, 29⟩ = some false) :=
  C1_occurrence_limits ⟨2024, 1, 1⟩ 2 3 ⟨2024, 1, 5⟩ ⟨2024, 1, 8⟩ (by omega) (by omega)

/-- C1 (counterexample): the monthly day-31 event anchored 2024-01-31
carries an occurrence limit of 2, yet 2024-01-31 is the only valid date
ever satisfying occursOn: February 2024 has no day 31 but still consumes
the second month index, so the would-be second occurrence 2024-03-31
arrives with index 3 and is rejected - not exactly N dates occur. -/
theorem C1_counterexample :
    (day31Event.recurrence.map fun r => r.occurrences) = some (some 2) ∧
    occursExactlyOn day31Event ⟨2024, 1, 31⟩ ∧
    eventOccursOnDate day31Event ⟨2024, 3, 31⟩ = some false :=
  ⟨by decide, ⟨by decide, fun d hv h => day31Event_only d hv h⟩, by decide⟩

/-- C3: for a monthly pattern event with weekday in 0..6 evaluated in an
in-scope month, occursOn with week -1 is true exactly on the last date of
the candidate month falling on that weekday (no later day of the month
has it), and with week >= 1 it is true exactly on the week-th such
weekday, that is the day with that weekday inside the week-th seven-day
window of the month - which is never satisfied when that nominal date
falls outside the month, as witnessed by the fifth-Monday event over
February 2024. Across the twelve months of 2024 the last-Friday event
occurs exactly on the calendar last Fridays, with 2024-02-23 in
February. -/
theorem C3_monthly_nth_weekday (anchor d : CalDate) (i : Int) (p : MonthlyPattern)
    (hv : ValidDate d) (hi : 1 ≤ i) (hanchor : anchor.dayNumber ≤ d.dayNumber)
    (hdow0 : 0 ≤ p.dayOfWeek) (hdow6 : p.dayOfWeek ≤ 6)
    (hscope : Int.tmod ((d.year - anchor.year) * 12 + (d.month - anchor.month)) i = 0) :
    ((p.week = -1 →
      (eventOccursOnDate ⟨anchor, some ⟨"monthly", i, [], none, some p, none, none⟩⟩ d
          = some true ↔
        (weekdayOf d.dayNumber = p.dayOfWeek ∧
          ∀ q, d.day < q → q ≤ daysInMonth d.year d.month →
            weekdayOf (daysFromCivil d.year d.month q) ≠ p.dayOfWeek))) ∧
     (1 ≤ p.week →
      (eventOccursOnDate ⟨anchor, some ⟨"monthly", i, [], none, some p, none, none⟩⟩ d
          = some true ↔
        (weekdayOf d.dayNumber = p.dayOfWeek ∧
          (p.week - 1) * 7 + 1 ≤ d.day ∧ d.day ≤ p.week * 7))) ∧
     eventOccursOnDate lastFridayEvent ⟨2024, 2, 23⟩ = some true ∧
     ((List.range 12).all fun mi => (List.range 31).all fun di =>
       (eventOccursOnDate lastFridayEvent ⟨2024, (mi : Int) + 1, (di : Int) + 1⟩
          == some true) ==
         lastFridays2024.contains ((mi : Int) + 1, (di : Int) + 1)) = true ∧
     eventOccursOnDate fifthMondayEvent ⟨2024, 1, 29⟩ = some true ∧
     ((List.range 31).all fun di =>
       eventOccursOnDate fifthMondayEvent ⟨2024, 2, (di : Int) + 1⟩ == some false) = true) :=
  ⟨fun hw => monthlyPattern_last anchor d i p hv hi hanchor hdow0 hdow6 hscope hw,
   fun hw => monthlyPattern_nth anchor d i p hv hi hanchor hdow0 hdow6 hscope hw,
   by decide, by decide, by decide, by decide⟩

/-- C3 (witness): the second-Tuesday pattern at 2024-01-09 (the second
Tuesday of January 2024), instantiating the week >= 1 characterization. -/
theorem C3_monthly_nth_weekday_witness :
    eventOccursOnDate ⟨⟨2024, 1, 1⟩, some ⟨"monthly", 1, [], none, some ⟨2, 2⟩, none, none⟩⟩
        ⟨2024, 1, 9⟩ = some true ↔
      (weekdayOf (⟨2024, 1, 9⟩ : CalDate).dayNumber = 2 ∧
        (2 - 1) * 7 + 1 ≤ (⟨2024, 1, 9⟩ : CalDate).day ∧
          (⟨2024, 1, 9⟩ : CalDate).day ≤ 2 * 7) :=
  (C3_monthly_nth_weekday ⟨2024, 1, 1⟩ ⟨2024, 1, 9⟩ 1 ⟨2, 2⟩ (by decide) (by decide)
    (by decide) (by decide) (by decide) (by decide)).2.1 (by norm_num)

/-- C9 (amended): the bounds startValue <= currentValue <= goalValue are
established by addHabit for a validated configuration and preserved by
setHabitComplete, whose configuration step also never decreases
currentValue; but updateHabit carries the old currentValue into the new
configuration without re-clamping it to the new goalValue, so the upper
bound can be violated when an update lowers the goal below the preserved
current value. -/
theorem C9_buildUp_invariant (data : AppData) (dateAbs : Int)
    (habitId newId name description unit : String) (sv gv iv di : Int) (completed : Bool)
    (existing : Habit) (cfg : BuildUpInput) (c : BuildUpConfig)
    (hinv : DataInv data) (hsv : 0 < sv) (hgv : sv < gv) (hiv : 0 < iv)
    (hc : existing.buildUpConfig = some c) (hci : ConfigInv c) (hnz : c.currentValue ≠ 0) :
    (DataInv (setHabitComplete data dateAbs habitId completed) ∧
     DataInv (addHabit data newId name description true
        (some ⟨sv, gv, iv, di, unit, none, none⟩)).1 ∧
     c.currentValue ≤ (stepBuildUp c completed).currentValue ∧
     (updatedHabit existing name description true (some cfg)).buildUpConfig =
        some ⟨cfg.startValue, cfg.goalValue, cfg.incrementValue, cfg.daysForIncrement,
          cfg.unit, c.currentValue, c.currentStreak⟩) :=
  ⟨setHabitComplete_inv data dateAbs habitId completed hinv,
    addHabit_inv data newId name description sv gv iv di unit hinv hsv hgv hiv,
    (stepBuildUp_inv c completed hci).2.1,
    updatedHabit_keeps_currentValue existing name description cfg c hc hnz⟩

/-- C9 (witness): the amended invariant instantiated on the empty
aggregate and the concrete habit of the counterexample (current value 8,
reconfigured with goal 5). -/
theorem C9_buildUp_invariant_witness :
    (DataInv (setHabitComplete ⟨[], []⟩ 0 "h" true) ∧
     DataInv (addHabit ⟨[], []⟩ "h" "n" "" true (some ⟨1, 10, 7, 1, "", none, none⟩)).1 ∧
     (⟨1, 10, 7, 1, "", 8, 0⟩ : BuildUpConfig).currentValue ≤
        (stepBuildUp ⟨1, 10, 7, 1, "", 8, 0⟩ true).currentValue ∧
     (updatedHabit ⟨"h", "n", "", false, true, some ⟨1, 10, 7, 1, "", 8, 0⟩⟩ "n" "" true
        (some ⟨1, 5, 1, 1, "", none, none⟩)).buildUpConfig =
        some ⟨1, 5, 1, 1, "", 8, 0⟩) :=
  C9_buildUp_invariant ⟨[], []⟩ 0 "h" "h" "n" "" "" 1 10 7 1 true
    ⟨"h", "n", "", false, true, some ⟨1, 10, 7, 1, "", 8, 0⟩⟩
    ⟨1, 5, 1, 1, "", none, none⟩ ⟨1, 10, 7, 1, "", 8, 0⟩
    (by decide) (by decide) (by decide) (by decide) (by decide) (by decide) (by decide)

/-- C9 (counterexample): starting from an empty aggregate, add a
validated build-up habit (start 1, goal 10, increment 7, threshold 1),
complete it once (current value steps to 8), then reconfigure it with the
validated configuration start 1, goal 5: the preserved current value 8
now exceeds the goal 5, so the invariant does not hold after every core
operation. -/
theorem C9_counterexample :
    (buildUpData3.habits.head?.bind fun h => h.buildUpConfig) =
      some ⟨1, 5, 1, 1, "", 8, 0⟩ ∧
    DataInv buildUpData1 ∧ DataInv buildUpData2 ∧ ¬ DataInv buildUpData3 := by decide

/-- C4: contrary to the claim, a malformed monthlyPattern dayOfWeek
outside 0..6 is not absorbed into a false result. With week -1 the
backward walk compares weekdays (always 0..6) against the weekday 7 and
never stops, for any amount of fuel: the source loops forever instead of
returning. With a positive week the weekday 7 acts like weekday 0 and the
engine returns true on such dates. The remaining malformed cases of the
claim do return false: an unknown recurrence type, a weekly recurrence
with an empty weekday set, and a monthly recurrence with neither a fixed
day nor a pattern. -/
theorem C4_malformed_recurrence :
    (∀ fuel : Nat, eventOccursOnDateF fuel badDowWalkEvent ⟨2024, 1, 15⟩ = none) ∧
    eventOccursOnDate badDowNthEvent ⟨2024, 1, 7⟩ = some true ∧
    eventOccursOnDate unknownTypeEvent ⟨2024, 1, 5⟩ = some false ∧
    eventOccursOnDate emptyWeeklyEvent ⟨2024, 1, 5⟩ = some false ∧
    eventOccursOnDate bareMonthlyEvent ⟨2024, 1, 5⟩ = some false ∧
    (badDowWalkEvent.recurrence.map fun r => r.monthlyPattern) = some (some ⟨-1, 7⟩) := by
  refine ⟨?_, by decide, by decide, by decide, by decide, by decide⟩
  intro fuel
  simp only [eventOccursOnDateF, badDowWalkEvent]
  norm_num [CalDate.dayNumber, daysFromCivil, jsModZero, truthyNum, weekdayOf,
    daysInMonth, isLeapYear]
  rw [walkBack_dow7]

/-- C2 (amended): for weekly recurrences the in-scope weeks are aligned
to the anchor day, not to calendar week starts: with no end condition,
occursOn holds exactly when the candidate is on or after the anchor, the
floor of (days between anchor and candidate) / 7 is divisible by the
interval, and the candidate weekday is configured. -/
theorem C2_weekly_alignment (anchor : CalDate) (i : Int) (dows : List Int) (d : CalDate)
    (hi : 1 ≤ i) (hne : dows ≠ []) :
    (eventOccursOnDate ⟨anchor, some ⟨"weekly", i, dows, none, none, none, none⟩⟩ d = some true ↔
      (anchor.dayNumber ≤ d.dayNumber ∧
        Int.tmod ((d.dayNumber - anchor.dayNumber) / 7) i = 0 ∧
        weekdayOf d.dayNumber ∈ dows)) :=
  weekly_characterization anchor i dows d hi hne

/-- C2 (witness): the characterization instantiated at the Wednesday
anchored event of the counterexample and the Monday 2024-01-08. -/
theorem C2_weekly_alignment_witness :
    (eventOccursOnDate ⟨⟨2024, 1, 3⟩, some ⟨"weekly", 2, [1], none, none, none, none⟩⟩
        ⟨2024, 1, 8⟩ = some true ↔
      ((⟨2024, 1, 3⟩ : CalDate).dayNumber ≤ (⟨2024, 1, 8⟩ : CalDate).dayNumber ∧
        Int.tmod (((⟨2024, 1, 8⟩ : CalDate).dayNumber - (⟨2024, 1, 3⟩ : CalDate).dayNumber) / 7) 2
          = 0 ∧
        weekdayOf (⟨2024, 1, 8⟩ : CalDate).dayNumber ∈ [1])) :=
  C2_weekly_alignment ⟨2024, 1, 3⟩ 2 [1] ⟨2024, 1, 8⟩ (by omega) (by simp)

/-- C2 (counterexample): for the Monday-only event with interval 2
anchored on Wednesday 2024-01-03, the engine reports an occurrence on
Monday 2024-01-08, while the claimed week-start-aligned rule reports
none: the week buckets of the source are anchor-aligned, not aligned to
calendar week starts. -/
theorem C2_counterexample :
    eventOccursOnDate anchorWedEvent ⟨2024, 1, 8⟩ = some true ∧
    specWeeklyOccurs anchorWedEvent ⟨2024, 1, 8⟩ = false ∧
    weekdayOf (⟨2024, 1, 3⟩ : CalDate).dayNumber = 3 ∧
    weekdayOf (⟨2024, 1, 8⟩ : CalDate).dayNumber = 1 := by decide

/-- C8: for every aggregate and pair of dates, getDayStatus returns gray
(undated) strictly after today regardless of stored data, and otherwise
classifies the day from the active (non-archived) habits only: gray when
none exist, red when zero are completed, green when all are, yellow
otherwise. -/
theorem C8_dayStatus_classification (data : AppData) (dateAbs todayAbs : Int) :
    (getDayStatus data dateAbs todayAbs).1 =
      (let active := data.habits.filter (fun h => !h.archived)
       let completed := active.filter (fun h => completedOn data.days dateAbs h.id)
       if todayAbs < dateAbs then "gray"
       else if active.length = 0 then "gray"
       else if completed.length = 0 then "red"
       else if completed.length = active.length then "green"
       else "yellow") := by
  rw [getDayStatus_fst_eq]
  by_cases hf : todayAbs < dateAbs <;> simp [specDayStatus, hf]

/-- C5 (amended): getDayStatus computes its result as the pure
classification of the stored day records and archived flags, but it is
not mutation-free: for a date not after today with no stored record, it
inserts a fresh empty day record into the aggregate (the lazy creation of
getDayData); in every other case the aggregate is returned unchanged. -/
theorem C5_dayStatus_frame (data : AppData) (dateAbs todayAbs : Int) :
    (getDayStatus data dateAbs todayAbs).1 = specDayStatus data dateAbs todayAbs ∧
    (getDayStatus data dateAbs todayAbs).2 =
      (if todayAbs < dateAbs ∨ (data.days.lookup dateAbs).isSome then data
       else ⟨data.habits, (dateAbs, (⟨[], []⟩ : DayRecord)) :: data.days⟩) :=
  ⟨getDayStatus_fst_eq data dateAbs todayAbs, getDayStatus_snd_eq data dateAbs todayAbs⟩

/-- C5 (counterexample): evaluating getDayStatus for todays date on an
aggregate with one habit and no stored records does change the aggregate:
a new (empty) day record is created, so the evaluation is not free of
effects on the days map. -/
theorem C5_dayStatus_mutates :
    (getDayStatus oneHabitData 0 0).2 ≠ oneHabitData ∧
      (getDayStatus oneHabitData 0 0).2.days = [(0, (⟨[], []⟩ : DayRecord))] := by decide

/-- C6: calculateLongestStreak on the fixture (habit created 2024-01-01,
today 2024-01-08, completions 01..03, miss on 04, completions 05..08)
returns count 4 with the run 2024-01-05 .. 2024-01-08 (day numbers 19727
and 19730); on a fixture with two runs of length two it returns the
first-occurring run, and a trailing still-open run is counted. -/
theorem C6_longestStreak_fixture :
    calculateLongestStreak "h" fixtureDays 19723 19730 =
      ⟨4, some 19727, some 19730⟩ ∧
    calculateLongestStreak "h" tieDays 19723 19730 = ⟨2, some 19723, some 19724⟩ ∧
    daysFromCivil 2024 1 1 = 19723 ∧ daysFromCivil 2024 1 5 = 19727 ∧
    daysFromCivil 2024 1 8 = 19730 := by decide

/-- C7: checkMilestone returns the smallest milestone of the configured
list [7, 30, 100, 365] that the current streak reaches and the previous
streak had not, none when no milestone is newly crossed, and in
particular 7 for (6, 7), none for (7, 8) and 30 for (29, 31). -/
theorem C7_checkMilestone (p c : Int) :
    (∀ m : Int, checkMilestone p c = some m ↔
      (m ∈ STREAK_MILESTONES ∧ m ≤ c ∧ p < m ∧
        ∀ m2 ∈ STREAK_MILESTONES, m2 ≤ c → p < m2 → m ≤ m2)) ∧
    (checkMilestone p c = none ↔ ∀ m ∈ STREAK_MILESTONES, ¬(m ≤ c ∧ p < m)) ∧
    checkMilestone 6 7 = some 7 ∧ checkMilestone 7 8 = none ∧
    checkMilestone 29 31 = some 30 := by
  refine ⟨?_, ?_, by decide, by decide, by decide⟩
  · intro m
    exact find?_milestone_char p c STREAK_MILESTONES (by decide) m
  · unfold checkMilestone
    rw [List.find?_eq_none]
    constructor
    · intro h m hm hand
      have := h m hm
      simp at this
      omega
    · intro h m hm
      have := h m hm
      simp
      omega

/-- C7 (witness): the three concrete milestone checks of the claim. -/
theorem C7_checkMilestone_witness :
    checkMilestone 6 7 = some 7 ∧ checkMilestone 7 8 = none ∧
      checkMilestone 29 31 = some 30 :=
  (C7_checkMilestone 29 31).2.2

/-- C10: a build-up configuration with a non-positive start, goal,
increment or threshold value, or with goal not above start, is rejected
by the habit-form save handler with a validation message and the
aggregate is left unchanged: no partial habit is created. -/
theorem C10_buildUp_validation (data : AppData) (newId name description : String)
    (sv gv iv di : Int) (unit : String)
    (hbad : sv ≤ 0 ∨ gv ≤ 0 ∨ iv ≤ 0 ∨ di ≤ 0 ∨ gv ≤ sv) :
    (habitFormSave data newId name description true ⟨some sv, some gv, some iv, some di, unit⟩).1.isSome
      ∧ (habitFormSave data newId name description true
          ⟨some sv, some gv, some iv, some di, unit⟩).2 = data := by
  unfold habitFormSave
  by_cases h1 : sv ≤ 0 ∨ gv ≤ 0 ∨ iv ≤ 0 ∨ di ≤ 0
  · simp [h1]
  · have h2 : gv ≤ sv := by omega
    simp [h1, h2]

/-- C10 (witness): the validation rejects goal 3 with start 5 and leaves
the empty aggregate empty. -/
theorem C10_buildUp_validation_witness :
    (habitFormSave (⟨[], []⟩ : AppData) "h" "n" "" true
      ⟨some 5, some 3, some 1, some 1, ""⟩).1.isSome ∧
    (habitFormSave (⟨[], []⟩ : AppData) "h" "n" "" true
      ⟨some 5, some 3, some 1, some 1, ""⟩).2 = (⟨[], []⟩ : AppData) :=
  C10_buildUp_validation ⟨[], []⟩ "h" "n" "" 5 3 1 1 "" (by omega)

end TrackDeez
